import Mathlib

/-!
Verification of the udp-proxy-2020 packet-relay core (`src/cmd/listen.go`,
`src/cmd/interfaces.go`) against its natural-language specification.

The Go sources are shallowly embedded: Go strings become `List Char`, the
configuration processing (`processListener`, `initalizeListeners`) becomes a
total function into `Except` (a `log.Fatalf` call, which terminates the Go
process, is modelled as `Except.error`), and the per-packet send path
(`sendPacket`) becomes a pure function from the decode outcome of the
gopacket `DecodingLayerParser` to the pair (log lines emitted, effect on the
raw socket).  External library calls (libpcap, the gopacket decoder, the raw
socket write) are modelled at their interface: the decoder's outcome is an
explicit input, and "written" records exactly the header and payload handed
to `ipv4.RawConn.WriteTo`.
-/

namespace UdpProxy

/-- Go strings, embedded as lists of characters (all strings handled by the
relay's configuration code are ASCII, so bytes and characters coincide). -/
abbrev GoStr := List Char

/-- Character list of a Lean string literal, for writing concrete inputs. -/
def gs (s : String) : GoStr := s.data

/-- Embedding of Go `strings.Split(s, sep)` for a one-character separator
(the source only splits on the one-character separators `"@"` and `"."`).
`Split` returns the substrings between consecutive separators; it never
returns an empty list. -/
def stringsSplit (sep : Char) : GoStr → List GoStr
  | [] => [[]]
  | c :: rest =>
    if c = sep then [] :: stringsSplit sep rest
    else
      match stringsSplit sep rest with
      | [] => [[c]]
      | h :: t => (c :: h) :: t

/-- Modelled from the spec: the helper `stringPrefixInSlice` is defined in the
repository's main package, which is not among the provided sources; only its
call site in `processListener` is.  The spec requires "The core rejects
(fatal, pre-startup) any configuration listing the same interface name more
than once."  `processListener` calls the helper with the query
`iface + "@"` and the list of interface names registered so far, so we model
it as: some element of the list, extended by the `"@"` separator, is a Go
`strings.HasPrefix` of the query.  For separator-free interface names (which
is all that `processListener` ever registers, since they come out of a split
on `"@"`) this holds exactly when the interface name already occurs in the
list, which is the spec's duplicate test. -/
def stringPrefixInSlice (a : GoStr) (list : List GoStr) : Bool :=
  list.any (fun b => List.isPrefixOf (b ++ ['@']) a)

/-- Capacity of each Endpoint's send channel (`const SendBufferSize = 100`). -/
def SendBufferSize : Nat := 100

/-- Embedding of the `Listen` struct: everything the relay keeps per
configured interface.  The two OS handles (`handle *pcap.Handle`,
`raw *ipv4.RawConn`) are embedded as `Option Unit`: `none` is Go's `nil`,
and `processListener` always constructs them as `nil` — they are only
opened by the later `initalizeInterface` phase. -/
structure Listen where
  iface : GoStr
  filter : GoStr
  ports : List Int
  ipaddr : GoStr
  promisc : Bool
  handle : Option Unit
  raw : Option Unit
  timeout : Nat
  sendpktCap : Nat
deriving DecidableEq, Repr

/-- Embedding of `processListener` (`listen.go`).  It walks the
`interface@ipaddr` pairs; a pair that does not split on `"@"` into exactly
two parts is a fatal error (`log.Fatalf`, modelled as `Except.error`), a
duplicate interface is a fatal error, and otherwise a `Listen` is created
with `nil` handles and the accumulated interface-name list is extended.
The `interfaces` in-out pointer parameter of the Go function becomes an
explicit argument and result. -/
def processListener (interfaces : List GoStr) (lp : List GoStr) (promisc : Bool)
    (bpfFilter : GoStr) (ports : List Int) (tmo : Nat) :
    Except GoStr (List GoStr × List Listen) :=
  match lp with
  | [] => .ok (interfaces, [])
  | i :: rest =>
    let s := stringsSplit '@' i
    if s.length ≠ 2 then
      .error (i ++ gs " is invalid.  Expected: <interface>@<ipaddr>")
    else
      let iface := s.headD []
      let ipaddr := s.tail.headD []
      if stringPrefixInSlice (iface ++ ['@']) interfaces then
        .error (gs "Can't specify the same interface multiple times")
      else
        match processListener (interfaces ++ [iface]) rest promisc bpfFilter ports tmo with
        | .error e => .error e
        | .ok (ifs, ls) =>
          .ok (ifs, ⟨iface, bpfFilter, ports, ipaddr, promisc, none, none, tmo,
                     SendBufferSize⟩ :: ls)

/-- Embedding of `initalizeListeners` (`listen.go`, name kept as in the
source): processes the configured pairs starting from an empty
interface-name accumulator and returns the created `Listen` values. -/
def initalizeListeners (ifaces : List GoStr) (promisc : Bool) (bpfFilter : GoStr)
    (ports : List Int) (timeout : Nat) : Except GoStr (List Listen) :=
  match processListener [] ifaces promisc bpfFilter ports timeout with
  | .error e => .error e
  | .ok (_, ls) => .ok ls

/-- The interface-name part of a configuration entry: the first part of the
split on `"@"` (Go's `s[0]`). -/
def ifaceOf (i : GoStr) : GoStr := (stringsSplit '@' i).headD []

/-- Whether every configuration entry splits on `"@"` into exactly two
parts (the validity test `processListener` applies entry by entry). -/
def allWellFormed (lp : List GoStr) : Bool :=
  lp.all (fun i => (stringsSplit '@' i).length == 2)

/-- Whether some configuration entry fails to split on `"@"` into exactly
two parts. -/
def hasMalformedEntry (lp : List GoStr) : Bool :=
  lp.any (fun i => !((stringsSplit '@' i).length == 2))

/-- Did configuration processing survive (no `log.Fatalf`)? -/
def resultOk {α : Type} : Except GoStr α → Bool
  | .ok _ => true
  | .error _ => false

/-- How many `Listen` values (Endpoints) a configuration run created: none
at all on a fatal error. -/
def listenCount : Except GoStr (List Listen) → Nat
  | .error _ => 0
  | .ok ls => ls.length

/-! ## The packet path -/

/-- gopacket layer types relevant to the relay (the layers registered with
the `DecodingLayerParser` in `sendPacket`). -/
inductive LayerType
  | loopbackL
  | ethernetL
  | ipv4L
  | udpL
  | payloadL
deriving DecidableEq, Repr

/-- pcap link types as `sendPacket` distinguishes them: the three supported
ones and everything else (with its numeric code). -/
inductive LinkType
  | nullL
  | loopL
  | ethernetL
  | other (code : Nat)
deriving DecidableEq, Repr

/-- Embedding of `validLinkTypes` (`listen.go`): `LinkTypeLoop`,
`LinkTypeEthernet`, `LinkTypeNull`. -/
def validLinkTypes : List LinkType := [.loopL, .ethernetL, .nullL]

/-- Embedding of `isValidLayerType` (`listen.go`): linear scan over
`validLinkTypes`. -/
def isValidLayerType (layertype : LinkType) : Bool :=
  validLinkTypes.any (fun b => b = layertype)

/-- A decoded IPv4 option as gopacket's `layers.IPv4Option` carries it:
option type, option length and the option data bytes. -/
structure IPv4Option where
  optionType : Nat
  optionLength : Nat
  optionData : List Nat
deriving DecidableEq, Repr

/-- The fields of gopacket's decoded `layers.IPv4` that `sendPacket` reads.
Numeric fields are machine integers embedded as `Nat` (all are read, never
arithmetically combined except `IHL * 4`, which cannot overflow
`int`). `srcIP` is the byte list of the decoded source address. -/
structure IPv4Layer where
  ihl : Nat
  tos : Nat
  length : Nat
  id : Nat
  flags : Nat
  fragOffset : Nat
  ttl : Nat
  srcIP : List Nat
  options : List IPv4Option
deriving DecidableEq, Repr

/-- Decimal digit characters of a natural number, as Go's `fmt` verb `%v`
prints an unsigned integer. -/
def natDigits (n : Nat) : GoStr := (Nat.repr n).data

/-- Go's `fmt` verb `%v` on a `[]byte`: the decimal values separated by
single spaces inside square brackets, e.g. `[7 3 4]`. -/
def byteSliceV (bs : List Nat) : GoStr :=
  ['['] ++ List.intercalate [' '] (bs.map natDigits) ++ [']']

/-- Embedding of gopacket's `layers.IPv4Option.String()`:
`fmt.Sprintf("IPv4Option(%v:%v)", i.OptionType, i.OptionData)` — a
human-readable rendering, not a wire serialization. -/
def ipv4OptionString (o : IPv4Option) : GoStr :=
  gs "IPv4Option(" ++ natDigits o.optionType ++ [':'] ++ byteSliceV o.optionData ++ [')']

/-- Embedding of the `ip_options` accumulation in `sendPacket`
(`listen.go`): for each decoded option it appends the bytes of
`o.String()` — the characters of the debug rendering, taken as bytes. -/
def goIpOptionsBytes (opts : List IPv4Option) : List Nat :=
  (opts.map (fun o => (ipv4OptionString o).map Char.toNat)).flatten

/-- Wire-format bytes of an IPv4 option, following the spec's words
("options are serialized back to their wire bytes"): option types 0 (end of
options) and 1 (no-operation) occupy a single byte; every other option is
type, length, then data.  This is the spec-side definition used to compare
against what the code actually emits. -/
def optionWireBytes (o : IPv4Option) : List Nat :=
  if o.optionType = 0 ∨ o.optionType = 1 then [o.optionType]
  else o.optionType :: o.optionLength :: o.optionData

/-- Wire-format bytes of an IPv4 options field: the options' wire bytes in
order (spec-side definition). -/
def optionsWireBytes (opts : List IPv4Option) : List Nat :=
  (opts.map optionWireBytes).flatten

/-- Numeric value of a string of decimal digits. -/
def digitsToNat (s : GoStr) : Nat :=
  s.foldl (fun acc c => acc * 10 + (c.toNat - 48)) 0

/-- One dotted-quad field for `net.ParseIP`: 1–3 decimal digits, no leading
zero, value at most 255. -/
def parseOctet (s : GoStr) : Option Nat :=
  if s.isEmpty || !s.all Char.isDigit || decide (3 < s.length) ||
      (decide (1 < s.length) && s.headD '0' == '0') || decide (255 < digitsToNat s) then
    none
  else
    some (digitsToNat s)

/-- Embedding of `net.ParseIP(s).To4()` for the IPv4 dotted-quad form: the
four address bytes on success, and the empty list for Go's `nil` when the
string is not a well-formed IPv4 address. -/
def parseIPTo4 (s : GoStr) : List Nat :=
  match (stringsSplit '.' s).mapM parseOctet with
  | some [a, b, c, d] => [a, b, c, d]
  | _ => []

/-- Embedding of `net.IP.To4`: a 4-byte address is returned as is, a
16-byte IPv4-in-IPv6 address is truncated to its last four bytes, anything
else gives `nil` (the empty list). -/
def ipTo4 (ip : List Nat) : List Nat :=
  if ip.length = 4 then ip
  else if ip.length = 16 ∧ ip.take 12 = [0, 0, 0, 0, 0, 0, 0, 0, 0, 0, 255, 255] then
    ip.drop 12
  else []

/-- Embedding of `golang.org/x/net/ipv4.Header` as `sendPacket` fills it in
before handing it to `ipv4.RawConn.WriteTo`. -/
structure Ipv4Header where
  version : Nat
  len : Nat
  tos : Nat
  totalLen : Nat
  id : Nat
  flags : Nat
  fragOff : Nat
  ttl : Nat
  protocol : Nat
  checksum : Nat
  src : List Nat
  dst : List Nat
  options : List Nat
deriving DecidableEq, Repr

/-- A captured gopacket packet as `handlePackets` inspects it: whether a
network layer is present, the transport layer's layer type if a transport
layer is present, the error layer's message if decoding produced one, and
the raw frame bytes. -/
structure Packet where
  networkLayer : Option Unit
  transportLayer : Option LayerType
  errorLayer : Option GoStr
  frameData : List Nat
deriving DecidableEq, Repr

/-- Embedding of the `Send` struct: the RelayMessage — captured packet,
source interface name and source link type. -/
structure Send where
  packet : Packet
  srcif : GoStr
  linkType : LinkType
deriving DecidableEq, Repr

/-- Log levels of the structured log lines the relay emits. -/
inductive LogLevel
  | debug
  | warn
  | error
  | fatal
deriving DecidableEq, Repr

/-- Outcome of `DecodingLayerParser.DecodeLayers` on the message's frame
bytes: a decode error, or the list of decoded layer types together with the
populated `ip4` struct and the payload bytes.  The decoder is an external
gopacket call, so its outcome is an explicit input of the embedded
`sendPacket`. -/
inductive DecodeOutcome
  | err (msg : GoStr)
  | ok (decoded : List LayerType) (ip4 : IPv4Layer) (payload : List Nat)
deriving DecidableEq, Repr

/-- Effect of one `sendPacket` call on the process and the raw socket:
process termination (`log.Fatalf`), a drop (early `return`, nothing
written), or a write of exactly this header and payload via
`ipv4.RawConn.WriteTo`. -/
inductive SendResult
  | fatalExit
  | dropped
  | written (h : Ipv4Header) (payload : List Nat)
deriving DecidableEq, Repr

/-- The IPv4 header a `SendResult` handed to the raw socket, if any. -/
def resultHeader : SendResult → Option Ipv4Header
  | .written h _ => some h
  | _ => none

/-- Embedding of `Listen.sendPacket` (`listen.go`).  The control flow
mirrors the source: the switch on `sndpkt.linkType` picks the decoding
parser for the three supported link types and calls `log.Fatalf` on any
other; a `DecodeLayers` error is logged at warn and the packet dropped; a
decode lacking the IPv4 or the UDP layer is logged at warn and dropped;
otherwise the IPv4 header is rebuilt field by field exactly as in the
source (`Version: 4`, `Len: int(ip4.IHL) * 4`, `TOS`, `TotalLen`, `ID`,
`Flags: 0`, `FragOff`, `TTL` copied not decremented, `Protocol: 17`,
`Checksum: 0`, `Src: ip4.SrcIP.To4()`, `Dst: net.ParseIP(l.ipaddr).To4()`,
`Options: ip_options`) and the header and the decoded payload are written
on the raw socket.  The first component collects the levels of the log
lines emitted, the second the effect. -/
def sendPacket (l : Listen) (sndpkt : Send) (outcome : DecodeOutcome) :
    List LogLevel × SendResult :=
  match sndpkt.linkType with
  | .other _ => ([.debug, .fatal], .fatalExit)
  | _ =>
    match outcome with
    | .err _ => ([.debug, .warn], .dropped)
    | .ok decoded ip4 payload =>
      let foundUdp := decoded.contains .udpL
      let foundIpv4 := decoded.contains .ipv4L
      if !foundUdp || !foundIpv4 then ([.debug, .warn], .dropped)
      else
        let h : Ipv4Header :=
          ⟨4, ip4.ihl * 4, ip4.tos, ip4.length, ip4.id, 0, ip4.fragOffset,
           ip4.ttl, 17, 0, ipTo4 ip4.srcIP, parseIPTo4 l.ipaddr,
           goIpOptionsBytes ip4.options⟩
        ([.debug, .debug], .written h payload)

/-- What the capture branch of `Listen.handlePackets` (`listen.go`) does
with one captured packet: if the packet has no network layer, no transport
layer, or a non-UDP transport layer it is logged at warn and dropped
(`continue`); if it carries an error layer, that is logged at error and the
packet is still submitted; otherwise it is submitted, as a `Send` carrying
this endpoint's interface name and the capture handle's link type, to the
Distributor. -/
inductive CaptureAction
  | drop
  | submit (msg : Send)
deriving DecidableEq, Repr

/-- Embedding of the `case packet := <-packets` branch of `handlePackets`
(`listen.go`), for one captured packet on endpoint `l` whose capture handle
has link type `lt`. -/
def handleCapturedPacket (l : Listen) (lt : LinkType) (packet : Packet) :
    List LogLevel × CaptureAction :=
  if packet.networkLayer = none ∨ packet.transportLayer = none ∨
      packet.transportLayer ≠ some LayerType.udpL then
    ([.warn], .drop)
  else
    match packet.errorLayer with
    | some _ => ([.error, .debug], .submit ⟨packet, l.iface, lt⟩)
    | none => ([.debug], .submit ⟨packet, l.iface, lt⟩)

/-- Modelled from the spec: the Distributor (`SendPktFeed` with its
`RegisterSender` and `Send` methods) lives in the repository's send path,
which is not among the provided sources; only its call sites in
`handlePackets` are.  Spec §4.3: "broadcast(message): for every registered
interface name *other than* message.sourceInterface, enqueue message onto
that target's queue."  We model a broadcast by the list of registered
interface names whose queues are offered the message. -/
def broadcastTargets (registered : List GoStr) (msg : Send) : List GoStr :=
  registered.filter (fun n => n ≠ msg.srcif)

/-- End-to-end capture-side fan-out: the interfaces offered one packet
captured on endpoint `l`, with `registered` the interface names registered
with the Distributor — empty when the capture branch drops the packet,
otherwise the Distributor's broadcast targets. -/
def captureAndBroadcast (registered : List GoStr) (l : Listen) (lt : LinkType)
    (packet : Packet) : List GoStr :=
  match (handleCapturedPacket l lt packet).2 with
  | .drop => []
  | .submit m => broadcastTargets registered m

/-! ## Helper lemmas -/

theorem stringsSplit_ne_nil (sep : Char) (l : GoStr) : stringsSplit sep l ≠ [] := by
  induction l with
  | nil => simp [stringsSplit]
  | cons c rest ih =>
    by_cases h : c = sep
    · simp [stringsSplit, h]
    · simp only [stringsSplit, if_neg h]
      cases hr : stringsSplit sep rest <;> simp

theorem sep_not_mem_of_mem_stringsSplit (sep : Char) (l : GoStr) :
    ∀ p ∈ stringsSplit sep l, sep ∉ p := by
  induction l with
  | nil =>
    intro p hp
    simp [stringsSplit] at hp
    simp [hp]
  | cons c rest ih =>
    intro p hp
    by_cases h : c = sep
    · rw [stringsSplit, if_pos h] at hp
      rcases List.mem_cons.mp hp with h1 | h1
      · simp [h1]
      · exact ih p h1
    · rw [stringsSplit, if_neg h] at hp
      rcases hr : stringsSplit sep rest with _ | ⟨hd, tl⟩
      · exact absurd hr (stringsSplit_ne_nil sep rest)
      · rw [hr] at hp
        rcases List.mem_cons.mp hp with h1 | h1
        · subst h1
          intro hmem
          rcases List.mem_cons.mp hmem with h2 | h2
          · exact h h2.symm
          · exact ih hd (by rw [hr]; exact List.mem_cons_self hd tl) h2
        · exact ih p (by rw [hr]; exact List.mem_cons_of_mem hd h1)

/-- For strings free of the separator, appending the separator and testing
for a Go `HasPrefix` is exactly an equality test. -/
theorem isPrefixOf_append_sep (sep : Char) (a b : GoStr)
    (ha : sep ∉ a) (hb : sep ∉ b) :
    List.isPrefixOf (b ++ [sep]) (a ++ [sep]) = true ↔ b = a := by
  induction b generalizing a with
  | nil =>
    cases a with
    | nil => simp [List.isPrefixOf]
    | cons c a' =>
      have hc : ¬ sep = c := fun h => ha (by simp [h])
      simp [List.isPrefixOf, hc]
  | cons d b' ih =>
    cases a with
    | nil =>
      have hd : ¬ d = sep := fun h => hb (by simp [h])
      simp [List.isPrefixOf, hd]
    | cons c a' =>
      have ha' : sep ∉ a' := fun h => ha (List.mem_cons_of_mem c h)
      have hb' : sep ∉ b' := fun h => hb (List.mem_cons_of_mem d h)
      simp [List.isPrefixOf, ih a' ha' hb']

/-- The interface-name part of any entry is free of the separator. -/
theorem sep_not_mem_ifaceOf (i : GoStr) : '@' ∉ ifaceOf i := by
  rcases hr : stringsSplit '@' i with _ | ⟨hd, tl⟩
  · exact absurd hr (stringsSplit_ne_nil '@' i)
  · have : ifaceOf i = hd := by simp [ifaceOf, hr]
    rw [this]
    exact sep_not_mem_of_mem_stringsSplit '@' i hd (by rw [hr]; exact List.mem_cons_self hd tl)

theorem allWellFormed_cons (i : GoStr) (rest : List GoStr) :
    allWellFormed (i :: rest) = true ↔
      (stringsSplit '@' i).length = 2 ∧ allWellFormed rest = true := by
  simp [allWellFormed]

/-- Success of `processListener`: on well-formed entries with pairwise
distinct interface names, starting from an accumulated name list that
collides with none of the entries, processing succeeds, registers the names
in order and creates one `Listen` per entry. -/
theorem processListener_ok (promisc : Bool) (bpf : GoStr) (ports : List Int) (tmo : Nat) :
    ∀ (lp interfaces : List GoStr),
      allWellFormed lp = true →
      (lp.map ifaceOf).Nodup →
      (∀ b ∈ interfaces, ∀ i ∈ lp,
        List.isPrefixOf (b ++ ['@']) (ifaceOf i ++ ['@']) = false) →
      ∃ ls, processListener interfaces lp promisc bpf ports tmo =
              .ok (interfaces ++ lp.map ifaceOf, ls) ∧ ls.length = lp.length := by
  intro lp
  induction lp with
  | nil =>
    intro interfaces _ _ _
    exact ⟨[], by simp [processListener]⟩
  | cons i rest ih =>
    intro interfaces hwf hnd hfresh
    obtain ⟨hi2, hwfr⟩ := (allWellFormed_cons i rest).mp hwf
    obtain ⟨x, y, hxy⟩ := List.length_eq_two.mp hi2
    have hx : ifaceOf i = x := by simp [ifaceOf, hxy]
    have hmap : (i :: rest).map ifaceOf = x :: rest.map ifaceOf := by simp [hx]
    rw [hmap] at hnd
    obtain ⟨hxnot, hndr⟩ := List.nodup_cons.mp hnd
    have hxfree : '@' ∉ x := hx ▸ sep_not_mem_ifaceOf i
    have hdup : stringPrefixInSlice (x ++ ['@']) interfaces = false := by
      simp only [stringPrefixInSlice, List.any_eq_false]
      intro b hb
      have := hfresh b hb i (List.mem_cons_self i rest)
      rw [hx] at this
      simp [this]
    have hfresh' : ∀ b ∈ interfaces ++ [x], ∀ j ∈ rest,
        List.isPrefixOf (b ++ ['@']) (ifaceOf j ++ ['@']) = false := by
      intro b hb j hj
      rcases List.mem_append.mp hb with hb1 | hb1
      · exact hfresh b hb1 j (List.mem_cons_of_mem i hj)
      · have hbx : b = x := by simpa using hb1
        subst hbx
        cases hv : List.isPrefixOf (b ++ ['@']) (ifaceOf j ++ ['@'])
        · rfl
        · exfalso
          have heq := (isPrefixOf_append_sep '@' (ifaceOf j) b
            (sep_not_mem_ifaceOf j) hxfree).mp hv
          exact hxnot (heq ▸ List.mem_map_of_mem ifaceOf hj)
    obtain ⟨ls, hls, hlen⟩ := ih (interfaces ++ [x]) hwfr hndr hfresh'
    refine ⟨⟨x, bpf, ports, y, promisc, none, none, tmo, SendBufferSize⟩ :: ls, ?_, by simp [hlen]⟩
    simp only [processListener, hxy]
    simp [hdup, hls, hmap]

/-- If some entry's interface name is already accumulated, processing fails
fatally. -/
theorem processListener_err_mem (promisc : Bool) (bpf : GoStr) (ports : List Int) (tmo : Nat) :
    ∀ (lp interfaces : List GoStr),
      allWellFormed lp = true →
      (∃ i ∈ lp, ifaceOf i ∈ interfaces) →
      resultOk (processListener interfaces lp promisc bpf ports tmo) = false := by
  intro lp
  induction lp with
  | nil =>
    intro interfaces _ hex
    simp at hex
  | cons i rest ih =>
    intro interfaces hwf hex
    obtain ⟨hi2, hwfr⟩ := (allWellFormed_cons i rest).mp hwf
    obtain ⟨x, y, hxy⟩ := List.length_eq_two.mp hi2
    have hx : ifaceOf i = x := by simp [ifaceOf, hxy]
    have hxfree : '@' ∉ x := hx ▸ sep_not_mem_ifaceOf i
    by_cases hdup : stringPrefixInSlice (x ++ ['@']) interfaces = true
    · simp only [processListener, hxy]
      simp [hdup, resultOk]
    · have hdup' : stringPrefixInSlice (x ++ ['@']) interfaces = false := by
        simpa using hdup
      obtain ⟨j, hj, hjm⟩ := hex
      rcases List.mem_cons.mp hj with hji | hjr
      · exfalso
        subst hji
        rw [hx] at hjm
        have : List.isPrefixOf (x ++ ['@']) (x ++ ['@']) = true :=
          (isPrefixOf_append_sep '@' x x hxfree hxfree).mpr rfl
        have : stringPrefixInSlice (x ++ ['@']) interfaces = true := by
          simp only [stringPrefixInSlice, List.any_eq_true]
          exact ⟨x, hjm, this⟩
        exact hdup (by simpa using this)
      · have hrec := ih (interfaces ++ [x]) hwfr
          ⟨j, hjr, List.mem_append_left [x] hjm⟩
        simp only [processListener, hxy]
        cases hr : processListener (interfaces ++ [x]) rest promisc bpf ports tmo with
        | error e => simp [hdup', hr, resultOk]
        | ok v => rw [hr] at hrec; simp [resultOk] at hrec

/-- A duplicated interface name among well-formed entries makes
`processListener` fail fatally, from any starting accumulator. -/
theorem processListener_err_dup (promisc : Bool) (bpf : GoStr) (ports : List Int) (tmo : Nat) :
    ∀ (lp interfaces : List GoStr),
      allWellFormed lp = true →
      ¬ (lp.map ifaceOf).Nodup →
      resultOk (processListener interfaces lp promisc bpf ports tmo) = false := by
  intro lp
  induction lp with
  | nil =>
    intro interfaces _ hnd
    exact absurd List.nodup_nil hnd
  | cons i rest ih =>
    intro interfaces hwf hnd
    obtain ⟨hi2, hwfr⟩ := (allWellFormed_cons i rest).mp hwf
    obtain ⟨x, y, hxy⟩ := List.length_eq_two.mp hi2
    have hx : ifaceOf i = x := by simp [ifaceOf, hxy]
    by_cases hdup : stringPrefixInSlice (x ++ ['@']) interfaces = true
    · simp only [processListener, hxy]
      simp [hdup, resultOk]
    · have hdup' : stringPrefixInSlice (x ++ ['@']) interfaces = false := by
        simpa using hdup
      by_cases hxin : x ∈ rest.map ifaceOf
      · obtain ⟨j, hj, hjx⟩ := List.mem_map.mp hxin
        have hrec := processListener_err_mem promisc bpf ports tmo rest
          (interfaces ++ [x]) hwfr
          ⟨j, hj, by rw [hjx]; exact List.mem_append_right interfaces (List.mem_singleton.mpr rfl)⟩
        simp only [processListener, hxy]
        cases hr : processListener (interfaces ++ [x]) rest promisc bpf ports tmo with
        | error e => simp [hdup', hr, resultOk]
        | ok v => rw [hr] at hrec; simp [resultOk] at hrec
      · have hndr : ¬ (rest.map ifaceOf).Nodup := by
          intro hn
          exact hnd (by rw [List.map_cons, hx]; exact List.nodup_cons.mpr ⟨hxin, hn⟩)
        have hrec := ih (interfaces ++ [x]) hwfr hndr
        simp only [processListener, hxy]
        cases hr : processListener (interfaces ++ [x]) rest promisc bpf ports tmo with
        | error e => simp [hdup', hr, resultOk]
        | ok v => rw [hr] at hrec; simp [resultOk] at hrec

/-- A malformed entry anywhere in the list makes `processListener` fail
fatally, from any starting accumulator. -/
theorem processListener_err_malformed (promisc : Bool) (bpf : GoStr) (ports : List Int) (tmo : Nat) :
    ∀ (lp interfaces : List GoStr),
      hasMalformedEntry lp = true →
      resultOk (processListener interfaces lp promisc bpf ports tmo) = false := by
  intro lp
  induction lp with
  | nil =>
    intro interfaces hm
    simp [hasMalformedEntry] at hm
  | cons i rest ih =>
    intro interfaces hm
    by_cases hi2 : (stringsSplit '@' i).length = 2
    · have hmr : hasMalformedEntry rest = true := by
        simp [hasMalformedEntry] at hm ⊢
        rcases hm with hm | hm
        · exact absurd hi2 hm
        · exact hm
      obtain ⟨x, y, hxy⟩ := List.length_eq_two.mp hi2
      by_cases hdup : stringPrefixInSlice (x ++ ['@']) interfaces = true
      · simp only [processListener, hxy]
        simp [hdup, resultOk]
      · have hdup' : stringPrefixInSlice (x ++ ['@']) interfaces = false := by
          simpa using hdup
        have hrec := ih (interfaces ++ [x]) hmr
        simp only [processListener, hxy]
        cases hr : processListener (interfaces ++ [x]) rest promisc bpf ports tmo with
        | error e => simp [hdup', hr, resultOk]
        | ok v => rw [hr] at hrec; simp [resultOk] at hrec
    · simp only [processListener]
      simp [hi2, resultOk]

/-! ## Claim theorems: configuration -/

/-- C4: with every configuration entry well-formed (splitting on `"@"` into
exactly two parts), startup configuration succeeds exactly when the
interface names are pairwise distinct: a duplicate interface name anywhere
in the list yields a fatal configuration error — the process dies before
steady state, and zero `Listen` values (Endpoints) are created — while a
valid list of N distinct interface names creates exactly N `Listen`
values. -/
theorem initalizeListeners_dup_fatal_count (lp : List GoStr) (promisc : Bool)
    (bpf : GoStr) (ports : List Int) (tmo : Nat)
    (hwf : allWellFormed lp = true) :
    (resultOk (initalizeListeners lp promisc bpf ports tmo) = true ↔
      (lp.map ifaceOf).Nodup) ∧
    listenCount (initalizeListeners lp promisc bpf ports tmo) =
      if (lp.map ifaceOf).Nodup then lp.length else 0 := by
  by_cases hnd : (lp.map ifaceOf).Nodup
  · obtain ⟨ls, hls, hlen⟩ := processListener_ok promisc bpf ports tmo lp [] hwf hnd (by simp)
    have hinit : initalizeListeners lp promisc bpf ports tmo = .ok ls := by
      simp [initalizeListeners, hls]
    simp [hinit, resultOk, listenCount, hnd, hlen]
  · have hrec := processListener_err_dup promisc bpf ports tmo lp [] hwf hnd
    cases hr : processListener [] lp promisc bpf ports tmo with
    | error e =>
      have hinit : initalizeListeners lp promisc bpf ports tmo = .error e := by
        simp [initalizeListeners, hr]
      simp [hinit, resultOk, listenCount, hnd]
    | ok v => rw [hr] at hrec; simp [resultOk] at hrec

/-- Witness for C4 at the spec's concrete two-interface scenario
configuration. -/
theorem initalizeListeners_dup_fatal_count_witness :
    allWellFormed [gs "eth0@192.168.1.255", gs "eth1@192.168.2.255"] = true ∧
    ((resultOk (initalizeListeners [gs "eth0@192.168.1.255", gs "eth1@192.168.2.255"]
        true (gs "udp") [9999] 250) = true ↔
      (([gs "eth0@192.168.1.255", gs "eth1@192.168.2.255"]).map ifaceOf).Nodup) ∧
     listenCount (initalizeListeners [gs "eth0@192.168.1.255", gs "eth1@192.168.2.255"]
        true (gs "udp") [9999] 250) =
       if (([gs "eth0@192.168.1.255", gs "eth1@192.168.2.255"]).map ifaceOf).Nodup
       then 2 else 0) :=
  ⟨by decide,
   initalizeListeners_dup_fatal_count [gs "eth0@192.168.1.255", gs "eth1@192.168.2.255"]
     true (gs "udp") [9999] 250 (by decide)⟩

/-- C8: a configuration entry that does not split on `"@"` into exactly two
parts makes configuration processing fail fatally.  The fatal error
prevents any `Listen` from being returned, and `processListener` creates
every `Listen` with a `nil` capture handle in any case — capture handles
are only opened by the later `initalizeInterface` phase, which a fatal
configuration error never reaches. -/
theorem initalizeListeners_malformed_fatal (lp : List GoStr) (promisc : Bool)
    (bpf : GoStr) (ports : List Int) (tmo : Nat)
    (hm : hasMalformedEntry lp = true) :
    resultOk (initalizeListeners lp promisc bpf ports tmo) = false := by
  have hrec := processListener_err_malformed promisc bpf ports tmo lp [] hm
  cases hr : processListener [] lp promisc bpf ports tmo with
  | error e => simp [initalizeListeners, hr, resultOk]
  | ok v => rw [hr] at hrec; simp [resultOk] at hrec

/-- Witness for C8 at the spec's example entry `"eth0"` (no separator). -/
theorem initalizeListeners_malformed_fatal_witness :
    hasMalformedEntry [gs "eth0"] = true ∧
    resultOk (initalizeListeners [gs "eth0"] true (gs "udp") [9999] 250) = false :=
  ⟨by decide,
   initalizeListeners_malformed_fatal [gs "eth0"] true (gs "udp") [9999] 250 (by decide)⟩

/-- C10: any entry containing exactly one separator is accepted as
well-formed, even when the interface-name part or the address part is the
empty string: a single such entry yields exactly one `Listen` carrying the
(possibly empty) parts verbatim, with no fatal error at configuration
time. -/
theorem initalizeListeners_empty_fields_ok (entry a b : GoStr) (promisc : Bool)
    (bpf : GoStr) (ports : List Int) (tmo : Nat)
    (hs : stringsSplit '@' entry = [a, b]) :
    initalizeListeners [entry] promisc bpf ports tmo =
      .ok [⟨a, bpf, ports, b, promisc, none, none, tmo, SendBufferSize⟩] := by
  simp [initalizeListeners, processListener, hs, stringPrefixInSlice]

/-- Witness for C10 at the entry `"eth0@"`, whose address part is empty. -/
theorem initalizeListeners_empty_fields_ok_witness :
    stringsSplit '@' (gs "eth0@") = [gs "eth0", gs ""] ∧
    initalizeListeners [gs "eth0@"] true (gs "udp") [9999] 250 =
      .ok [⟨gs "eth0", gs "udp", [9999], gs "", true, none, none, 250, SendBufferSize⟩] :=
  ⟨by decide,
   initalizeListeners_empty_fields_ok (gs "eth0@") (gs "eth0") (gs "") true (gs "udp")
     [9999] 250 (by decide)⟩

/-! ## Claim theorems: the packet path -/

/-- C1: a captured IPv4/UDP packet arriving on a configured interface A
(with at least two interfaces registered with the Distributor) is offered
for transmission on every registered interface other than A and never on A
itself: the RelayMessage carries its source interface name `l.iface` and
the broadcast excludes exactly that name. -/
theorem captureAndBroadcast_excludes_source (registered : List GoStr) (l : Listen)
    (lt : LinkType) (p : Packet)
    (hnet : p.networkLayer = some ())
    (htrans : p.transportLayer = some LayerType.udpL)
    (hmem : l.iface ∈ registered)
    (htwo : 2 ≤ registered.length) :
    l.iface ∉ captureAndBroadcast registered l lt p ∧
    ∀ B ∈ registered, B ≠ l.iface → B ∈ captureAndBroadcast registered l lt p := by
  have haction : (handleCapturedPacket l lt p).2 = .submit ⟨p, l.iface, lt⟩ := by
    cases he : p.errorLayer <;> simp [handleCapturedPacket, hnet, htrans, he]
  have hcb : captureAndBroadcast registered l lt p =
      registered.filter (fun n => n ≠ l.iface) := by
    simp [captureAndBroadcast, haction, broadcastTargets]
  constructor
  · rw [hcb]
    intro hc
    have hne := (List.mem_filter.mp hc).2
    simp at hne
  · intro B hB hne
    rw [hcb]
    exact List.mem_filter.mpr ⟨hB, by simpa using hne⟩

/-- Witness for C1: two registered interfaces, a valid UDP packet captured
on `eth0` is offered on `eth1` and not on `eth0`. -/
theorem captureAndBroadcast_excludes_source_witness :
    (⟨some (), some LayerType.udpL, none, [1, 2]⟩ : Packet).networkLayer = some () ∧
    (⟨some (), some LayerType.udpL, none, [1, 2]⟩ : Packet).transportLayer =
      some LayerType.udpL ∧
    (⟨gs "eth0", gs "udp", [9999], gs "192.168.1.255", true, none, none, 250, 100⟩ :
        Listen).iface ∈ [gs "eth0", gs "eth1"] ∧
    2 ≤ ([gs "eth0", gs "eth1"]).length ∧
    ((⟨gs "eth0", gs "udp", [9999], gs "192.168.1.255", true, none, none, 250, 100⟩ :
        Listen).iface ∉
      captureAndBroadcast [gs "eth0", gs "eth1"]
        ⟨gs "eth0", gs "udp", [9999], gs "192.168.1.255", true, none, none, 250, 100⟩
        .ethernetL ⟨some (), some LayerType.udpL, none, [1, 2]⟩ ∧
     ∀ B ∈ [gs "eth0", gs "eth1"],
       B ≠ (⟨gs "eth0", gs "udp", [9999], gs "192.168.1.255", true, none, none, 250, 100⟩ :
          Listen).iface →
       B ∈ captureAndBroadcast [gs "eth0", gs "eth1"]
         ⟨gs "eth0", gs "udp", [9999], gs "192.168.1.255", true, none, none, 250, 100⟩
         .ethernetL ⟨some (), some LayerType.udpL, none, [1, 2]⟩) :=
  ⟨rfl, rfl, by decide, by decide,
   captureAndBroadcast_excludes_source [gs "eth0", gs "eth1"]
     ⟨gs "eth0", gs "udp", [9999], gs "192.168.1.255", true, none, none, 250, 100⟩
     .ethernetL ⟨some (), some LayerType.udpL, none, [1, 2]⟩ rfl rfl (by decide) (by decide)⟩

/-- C2: for a RelayMessage (on a supported link type) that decodes to
IPv4+UDP, the rewritten header has version 4, header length `IHL * 4`
(words to bytes), total length, TTL (not decremented), type of service,
identification and fragment offset copied, protocol 17, checksum 0, source
address equal to the decoded source address, destination address equal to
the parse of the endpoint's configured destination address, and the payload
written on the raw socket is exactly the decoded payload. -/
theorem sendPacket_rewrite_fields (l : Listen) (pkt : Packet) (srcif : GoStr)
    (lt : LinkType) (decoded : List LayerType) (ip4 : IPv4Layer) (payload : List Nat)
    (hlt : isValidLayerType lt = true)
    (hudp : decoded.contains LayerType.udpL = true)
    (hip4 : decoded.contains LayerType.ipv4L = true)
    (hsrc : ip4.srcIP.length = 4) :
    sendPacket l ⟨pkt, srcif, lt⟩ (.ok decoded ip4 payload) =
      ([.debug, .debug],
       .written ⟨4, ip4.ihl * 4, ip4.tos, ip4.length, ip4.id, 0, ip4.fragOffset,
                 ip4.ttl, 17, 0, ip4.srcIP, parseIPTo4 l.ipaddr,
                 goIpOptionsBytes ip4.options⟩ payload) := by
  have hu : LayerType.udpL ∈ decoded := by simpa using hudp
  have hi : LayerType.ipv4L ∈ decoded := by simpa using hip4
  cases lt with
  | other n => simp [isValidLayerType, validLinkTypes] at hlt
  | nullL => simp [sendPacket, hu, hi, ipTo4, hsrc]
  | loopL => simp [sendPacket, hu, hi, ipTo4, hsrc]
  | ethernetL => simp [sendPacket, hu, hi, ipTo4, hsrc]

/-- Witness for C2 at the spec's concrete scenario: TTL 64, source
192.168.1.50, egress destination 192.168.2.255. -/
theorem sendPacket_rewrite_fields_witness :
    isValidLayerType .ethernetL = true ∧
    ([LayerType.ethernetL, .ipv4L, .udpL, .payloadL]).contains LayerType.udpL = true ∧
    ([LayerType.ethernetL, .ipv4L, .udpL, .payloadL]).contains LayerType.ipv4L = true ∧
    (⟨5, 0, 100, 7, 0, 0, 64, [192, 168, 1, 50], []⟩ : IPv4Layer).srcIP.length = 4 ∧
    sendPacket ⟨gs "eth1", gs "udp", [9999], gs "192.168.2.255", true, none, none, 250, 100⟩
      ⟨⟨some (), some LayerType.udpL, none, []⟩, gs "eth0", .ethernetL⟩
      (.ok [.ethernetL, .ipv4L, .udpL, .payloadL]
        ⟨5, 0, 100, 7, 0, 0, 64, [192, 168, 1, 50], []⟩ [1, 2, 3]) =
      ([.debug, .debug],
       .written ⟨4, 20, 0, 100, 7, 0, 0, 64, 17, 0, [192, 168, 1, 50],
                 parseIPTo4 (gs "192.168.2.255"), []⟩ [1, 2, 3]) :=
  ⟨by decide, by decide, by decide, by decide,
   sendPacket_rewrite_fields
     ⟨gs "eth1", gs "udp", [9999], gs "192.168.2.255", true, none, none, 250, 100⟩
     ⟨some (), some LayerType.udpL, none, []⟩ (gs "eth0") .ethernetL
     [.ethernetL, .ipv4L, .udpL, .payloadL]
     ⟨5, 0, 100, 7, 0, 0, 64, [192, 168, 1, 50], []⟩ [1, 2, 3]
     (by decide) (by decide) (by decide) (by decide)⟩

/-- C3: the rewritten header's options field is NOT the original options'
wire bytes.  `sendPacket` appends, for each decoded option, the bytes of
gopacket's human-readable `IPv4Option.String()` rendering
(`"IPv4Option(type:data)"`) instead of serializing the option back to the
wire.  At the failing input — one option with type 7, length 3, data `[4]`,
whose wire bytes are `[7, 3, 4]` — the rewritten header carries the ASCII
bytes of `"IPv4Option(7:[4])"`. -/
theorem sendPacket_options_debug_string_bug :
    goIpOptionsBytes [⟨7, 3, [4]⟩] = (gs "IPv4Option(7:[4])").map Char.toNat ∧
    optionsWireBytes [⟨7, 3, [4]⟩] = [7, 3, 4] ∧
    goIpOptionsBytes [⟨7, 3, [4]⟩] ≠ optionsWireBytes [⟨7, 3, [4]⟩] ∧
    Option.map Ipv4Header.options (resultHeader ((sendPacket
        ⟨gs "eth1", gs "udp", [9999], gs "192.168.2.255", true, none, none, 250, 100⟩
        ⟨⟨some (), some LayerType.udpL, none, []⟩, gs "eth0", .ethernetL⟩
        (.ok [.ethernetL, .ipv4L, .udpL, .payloadL]
          ⟨6, 0, 104, 7, 0, 0, 64, [192, 168, 1, 50], [⟨7, 3, [4]⟩]⟩ [5, 6])).2)) =
      some ((gs "IPv4Option(7:[4])").map Char.toNat) := by
  exact ⟨by decide, by decide, by decide, by decide⟩

/-- C5 amended: the rewritten header's type of service, identification and
fragment offset are copied from the original decoded header, but the
fragmentation-flags field is not — `sendPacket` sets `Flags: 0` regardless
of the original packet's flags. -/
theorem sendPacket_tos_id_fragoff_copied_flags_zeroed (l : Listen) (pkt : Packet)
    (srcif : GoStr) (lt : LinkType) (decoded : List LayerType) (ip4 : IPv4Layer)
    (payload : List Nat)
    (hlt : isValidLayerType lt = true)
    (hudp : decoded.contains LayerType.udpL = true)
    (hip4 : decoded.contains LayerType.ipv4L = true) :
    Option.map Ipv4Header.tos
        (resultHeader ((sendPacket l ⟨pkt, srcif, lt⟩ (.ok decoded ip4 payload)).2)) =
      some ip4.tos ∧
    Option.map Ipv4Header.id
        (resultHeader ((sendPacket l ⟨pkt, srcif, lt⟩ (.ok decoded ip4 payload)).2)) =
      some ip4.id ∧
    Option.map Ipv4Header.fragOff
        (resultHeader ((sendPacket l ⟨pkt, srcif, lt⟩ (.ok decoded ip4 payload)).2)) =
      some ip4.fragOffset ∧
    Option.map Ipv4Header.flags
        (resultHeader ((sendPacket l ⟨pkt, srcif, lt⟩ (.ok decoded ip4 payload)).2)) =
      some 0 := by
  have hu : LayerType.udpL ∈ decoded := by simpa using hudp
  have hi : LayerType.ipv4L ∈ decoded := by simpa using hip4
  cases lt with
  | other n => simp [isValidLayerType, validLinkTypes] at hlt
  | nullL => simp [sendPacket, hu, hi, resultHeader]
  | loopL => simp [sendPacket, hu, hi, resultHeader]
  | ethernetL => simp [sendPacket, hu, hi, resultHeader]

/-- Witness for the amended C5 at a concrete packet with flags 2
(don't-fragment) in the original header. -/
theorem sendPacket_tos_id_fragoff_copied_flags_zeroed_witness :
    isValidLayerType .ethernetL = true ∧
    ([LayerType.ethernetL, .ipv4L, .udpL, .payloadL]).contains LayerType.udpL = true ∧
    ([LayerType.ethernetL, .ipv4L, .udpL, .payloadL]).contains LayerType.ipv4L = true ∧
    (Option.map Ipv4Header.tos (resultHeader ((sendPacket
        ⟨gs "eth1", gs "udp", [9999], gs "192.168.2.255", true, none, none, 250, 100⟩
        ⟨⟨some (), some LayerType.udpL, none, []⟩, gs "eth0", .ethernetL⟩
        (.ok [.ethernetL, .ipv4L, .udpL, .payloadL]
          ⟨5, 1, 100, 7, 2, 3, 64, [192, 168, 1, 50], []⟩ [5, 6])).2)) = some 1 ∧
     Option.map Ipv4Header.id (resultHeader ((sendPacket
        ⟨gs "eth1", gs "udp", [9999], gs "192.168.2.255", true, none, none, 250, 100⟩
        ⟨⟨some (), some LayerType.udpL, none, []⟩, gs "eth0", .ethernetL⟩
        (.ok [.ethernetL, .ipv4L, .udpL, .payloadL]
          ⟨5, 1, 100, 7, 2, 3, 64, [192, 168, 1, 50], []⟩ [5, 6])).2)) = some 7 ∧
     Option.map Ipv4Header.fragOff (resultHeader ((sendPacket
        ⟨gs "eth1", gs "udp", [9999], gs "192.168.2.255", true, none, none, 250, 100⟩
        ⟨⟨some (), some LayerType.udpL, none, []⟩, gs "eth0", .ethernetL⟩
        (.ok [.ethernetL, .ipv4L, .udpL, .payloadL]
          ⟨5, 1, 100, 7, 2, 3, 64, [192, 168, 1, 50], []⟩ [5, 6])).2)) = some 3 ∧
     Option.map Ipv4Header.flags (resultHeader ((sendPacket
        ⟨gs "eth1", gs "udp", [9999], gs "192.168.2.255", true, none, none, 250, 100⟩
        ⟨⟨some (), some LayerType.udpL, none, []⟩, gs "eth0", .ethernetL⟩
        (.ok [.ethernetL, .ipv4L, .udpL, .payloadL]
          ⟨5, 1, 100, 7, 2, 3, 64, [192, 168, 1, 50], []⟩ [5, 6])).2)) = some 0) :=
  ⟨by decide, by decide, by decide,
   sendPacket_tos_id_fragoff_copied_flags_zeroed
     ⟨gs "eth1", gs "udp", [9999], gs "192.168.2.255", true, none, none, 250, 100⟩
     ⟨some (), some LayerType.udpL, none, []⟩ (gs "eth0") .ethernetL
     [.ethernetL, .ipv4L, .udpL, .payloadL]
     ⟨5, 1, 100, 7, 2, 3, 64, [192, 168, 1, 50], []⟩ [5, 6]
     (by decide) (by decide) (by decide)⟩

/-- C5 counterexample: at a concrete original header with fragmentation
flags 2 (don't-fragment), the rewritten header carries flags 0, not the
original's flags — the code writes `Flags: 0` instead of copying, so the
rewritten flags field does not equal the original one. -/
theorem sendPacket_flags_counterexample :
    Option.map Ipv4Header.flags (resultHeader ((sendPacket
        ⟨gs "eth1", gs "udp", [9999], gs "192.168.2.255", true, none, none, 250, 100⟩
        ⟨⟨some (), some LayerType.udpL, none, []⟩, gs "eth0", .ethernetL⟩
        (.ok [.ethernetL, .ipv4L, .udpL, .payloadL]
          ⟨5, 1, 100, 7, 2, 3, 64, [192, 168, 1, 50], []⟩ [5, 6])).2)) = some 0 ∧
    (⟨5, 1, 100, 7, 2, 3, 64, [192, 168, 1, 50], []⟩ : IPv4Layer).flags = 2 ∧
    Option.map Ipv4Header.flags (resultHeader ((sendPacket
        ⟨gs "eth1", gs "udp", [9999], gs "192.168.2.255", true, none, none, 250, 100⟩
        ⟨⟨some (), some LayerType.udpL, none, []⟩, gs "eth0", .ethernetL⟩
        (.ok [.ethernetL, .ipv4L, .udpL, .payloadL]
          ⟨5, 1, 100, 7, 2, 3, 64, [192, 168, 1, 50], []⟩ [5, 6])).2)) ≠
      some (⟨5, 1, 100, 7, 2, 3, 64, [192, 168, 1, 50], []⟩ : IPv4Layer).flags := by
  exact ⟨by decide, by decide, by decide⟩

/-- C6: a RelayMessage (on a supported link type) whose frame decodes
without a parse error but whose decoded layer list lacks the IPv4 layer or
the UDP layer is rejected: one warn-level log line, the result is a drop —
nothing is written to the raw socket and the process does not terminate. -/
theorem sendPacket_missing_layer_dropped (l : Listen) (pkt : Packet) (srcif : GoStr)
    (lt : LinkType) (decoded : List LayerType) (ip4 : IPv4Layer) (payload : List Nat)
    (hlt : isValidLayerType lt = true)
    (hmiss : (!decoded.contains LayerType.udpL || !decoded.contains LayerType.ipv4L) = true) :
    sendPacket l ⟨pkt, srcif, lt⟩ (.ok decoded ip4 payload) = ([.debug, .warn], .dropped) := by
  have hm : LayerType.udpL ∈ decoded → LayerType.ipv4L ∉ decoded := by
    have hd : LayerType.udpL ∉ decoded ∨ LayerType.ipv4L ∉ decoded := by
      simpa using hmiss
    intro hu
    rcases hd with hd | hd
    · exact absurd hu hd
    · exact hd
  cases lt with
  | other n => simp [isValidLayerType, validLinkTypes] at hlt
  | nullL => simp [sendPacket]; exact hm
  | loopL => simp [sendPacket]; exact hm
  | ethernetL => simp [sendPacket]; exact hm

/-- Witness for C6: an Ethernet frame that decoded to IPv4 but not UDP. -/
theorem sendPacket_missing_layer_dropped_witness :
    isValidLayerType .ethernetL = true ∧
    (!([LayerType.ethernetL, .ipv4L]).contains LayerType.udpL ||
      !([LayerType.ethernetL, .ipv4L]).contains LayerType.ipv4L) = true ∧
    sendPacket ⟨gs "eth1", gs "udp", [9999], gs "192.168.2.255", true, none, none, 250, 100⟩
      ⟨⟨some (), some LayerType.udpL, none, []⟩, gs "eth0", .ethernetL⟩
      (.ok [.ethernetL, .ipv4L] ⟨5, 0, 100, 7, 0, 0, 64, [192, 168, 1, 50], []⟩ [5, 6]) =
      ([.debug, .warn], .dropped) :=
  ⟨by decide, by decide,
   sendPacket_missing_layer_dropped
     ⟨gs "eth1", gs "udp", [9999], gs "192.168.2.255", true, none, none, 250, 100⟩
     ⟨some (), some LayerType.udpL, none, []⟩ (gs "eth0") .ethernetL
     [.ethernetL, .ipv4L] ⟨5, 0, 100, 7, 0, 0, 64, [192, 168, 1, 50], []⟩ [5, 6]
     (by decide) (by decide)⟩

/-- C7 counterexample: at source link type code 101 (not Ethernet, Loopback
or Null), `sendPacket` logs at fatal level and terminates the process — the
packet is not merely dropped with processing continuing, as the claim
states. -/
theorem sendPacket_unsupported_linktype_counterexample :
    sendPacket ⟨gs "eth1", gs "udp", [9999], gs "192.168.2.255", true, none, none, 250, 100⟩
        ⟨⟨some (), some LayerType.udpL, none, []⟩, gs "eth0", .other 101⟩
        (.ok [.ethernetL, .ipv4L, .udpL, .payloadL]
          ⟨5, 0, 100, 7, 0, 0, 64, [192, 168, 1, 50], []⟩ [5, 6]) =
      ([.debug, .fatal], .fatalExit) ∧
    SendResult.fatalExit ≠ .dropped := by
  exact ⟨rfl, by decide⟩

/-- C7 amended: a RelayMessage whose source link type is not among the
supported `validLinkTypes` is handled fatally: `sendPacket` logs at fatal
level and the process terminates (`log.Fatalf`); the packet is neither
dropped-with-processing-continuing nor written. -/
theorem sendPacket_unsupported_linktype_fatal (l : Listen) (pkt : Packet) (srcif : GoStr)
    (n : Nat) (outcome : DecodeOutcome) :
    isValidLayerType (.other n) = false ∧
    sendPacket l ⟨pkt, srcif, .other n⟩ outcome = ([.debug, .fatal], .fatalExit) := by
  exact ⟨by simp [isValidLayerType, validLinkTypes], rfl⟩

/-- C9: a captured packet that has a network layer and a UDP transport
layer but whose decoding also produced an error layer is logged at error
level and still submitted to the Distributor's broadcast: it is forwarded
to the other registered interfaces, not dropped. -/
theorem handlePackets_error_layer_still_forwarded (registered : List GoStr) (l : Listen)
    (lt : LinkType) (p : Packet) (e : GoStr)
    (hnet : p.networkLayer = some ())
    (htrans : p.transportLayer = some LayerType.udpL)
    (herr : p.errorLayer = some e) :
    handleCapturedPacket l lt p = ([.error, .debug], .submit ⟨p, l.iface, lt⟩) ∧
    captureAndBroadcast registered l lt p = broadcastTargets registered ⟨p, l.iface, lt⟩ := by
  have h1 : handleCapturedPacket l lt p = ([.error, .debug], .submit ⟨p, l.iface, lt⟩) := by
    simp [handleCapturedPacket, hnet, htrans, herr]
  exact ⟨h1, by simp [captureAndBroadcast, h1]⟩

/-- Witness for C9: a partially malformed frame (error layer present) with
valid network and UDP layers, captured on `eth0` of a two-interface
configuration, is still handed to the broadcast. -/
theorem handlePackets_error_layer_still_forwarded_witness :
    (⟨some (), some LayerType.udpL, some (gs "truncated"), [1]⟩ : Packet).networkLayer =
      some () ∧
    (⟨some (), some LayerType.udpL, some (gs "truncated"), [1]⟩ : Packet).transportLayer =
      some LayerType.udpL ∧
    (⟨some (), some LayerType.udpL, some (gs "truncated"), [1]⟩ : Packet).errorLayer =
      some (gs "truncated") ∧
    (handleCapturedPacket
        ⟨gs "eth0", gs "udp", [9999], gs "192.168.1.255", true, none, none, 250, 100⟩
        .ethernetL ⟨some (), some LayerType.udpL, some (gs "truncated"), [1]⟩ =
      ([.error, .debug],
       .submit ⟨⟨some (), some LayerType.udpL, some (gs "truncated"), [1]⟩, gs "eth0",
                .ethernetL⟩) ∧
     captureAndBroadcast [gs "eth0", gs "eth1"]
        ⟨gs "eth0", gs "udp", [9999], gs "192.168.1.255", true, none, none, 250, 100⟩
        .ethernetL ⟨some (), some LayerType.udpL, some (gs "truncated"), [1]⟩ =
      broadcastTargets [gs "eth0", gs "eth1"]
        ⟨⟨some (), some LayerType.udpL, some (gs "truncated"), [1]⟩, gs "eth0",
         .ethernetL⟩) :=
  ⟨rfl, rfl, rfl,
   handlePackets_error_layer_still_forwarded [gs "eth0", gs "eth1"]
     ⟨gs "eth0", gs "udp", [9999], gs "192.168.1.255", true, none, none, 250, 100⟩
     .ethernetL ⟨some (), some LayerType.udpL, some (gs "truncated"), [1]⟩
     (gs "truncated") rfl rfl rfl⟩

end UdpProxy
